import Mathlib

/-!
Verification development for the `claude-side-bar` terminal task-queue sidebar.

The program is a single-process terminal UI (`src/components/RawSidebar.tsx`,
two revisions in one file) backed by a per-project JSON document store
(`src/persistence/store.ts`).  This file shallowly embeds the data model,
the persistence operations and the input-handling state machine, and proves
or refutes the behavioural properties stated in the project specification.

Modelling conventions:
* JavaScript strings are embedded as `List Char` (all inputs of interest are
  ASCII, so code units and characters coincide); `String.slice` with its
  negative-index semantics is `jsSliceL`/`jsSliceFromL`.
* JS numbers holding cursor offsets are embedded as `Int` (they can go
  negative through the arithmetic in the visual-line navigation handlers).
* `crypto.randomUUID()` is modelled as drawing from a counter supply
  (`nextId`); `Date.now()`/`new Date().toISOString()` as a `now : Nat`
  clock.  `createdAt`/`sentAt` timestamps are embedded as the epoch value
  that `new Date(x).getTime()` yields, so comparisons agree with the code.
* File-system reads are modelled as a map from file name to optional raw
  contents, with `JSON.parse` as an oracle `String → Option α` (`none`
  models a parse exception).
-/

namespace Sidebar

/-! ## JavaScript string primitives (over `List Char`) -/

/-- Clamp an ECMAScript slice index into `[0, len]`:
negative indices count from the end (`max (len + i) 0`),
nonnegative ones are capped at `len` (`min i len`). -/
def jsIndex (len : Nat) (i : Int) : Nat :=
  if i < 0 then ((len : Int) + i).toNat else min i.toNat len

/-- `s.slice(start, stop)` for JS strings. -/
def jsSliceL (s : List Char) (start stop : Int) : List Char :=
  (s.take (jsIndex s.length stop)).drop (jsIndex s.length start)

/-- `s.slice(start)` for JS strings. -/
def jsSliceFromL (s : List Char) (start : Int) : List Char :=
  s.drop (jsIndex s.length start)

/-- The ASCII whitespace characters recognised by `String.prototype.trim`
(the inputs of interest are ASCII; the full Unicode white-space set is not
needed). -/
def isJsSpace (c : Char) : Bool :=
  c = ' ' || c = '\t' || c = '\n' || c = '\r' || c = '\x0b' || c = '\x0c'

/-- `s.trim()`. -/
def jsTrim (s : List Char) : List Char :=
  ((s.dropWhile isJsSpace).reverse.dropWhile isJsSpace).reverse

/-- `content.split(/\r?\n/)`: split at each `"\r\n"` or `"\n"`
(a lone `'\r'` is not a separator). -/
def splitLines : List Char → List (List Char)
  | [] => [[]]
  | '\r' :: '\n' :: rest => [] :: splitLines rest
  | '\n' :: rest => [] :: splitLines rest
  | c :: rest =>
    match splitLines rest with
    | [] => [[c]]
    | h :: t => (c :: h) :: t

/-- `content.replace(/\r?\n/g, ' ')`. -/
def replNewlines : List Char → List Char
  | [] => []
  | '\r' :: '\n' :: rest => ' ' :: replNewlines rest
  | '\n' :: rest => ' ' :: replNewlines rest
  | c :: rest => c :: replNewlines rest

/-- `while (pos > 0 && p(buf[pos - 1])) pos--` : the backward scanning loop
used by the word-jump and kill-word handlers.  Indices stay inside the
buffer whenever the cursor invariant `pos ≤ buf.length` holds (out-of-range
indices read as `undefined`, which fails both character tests used below). -/
def skipWhileLeft (p : Char → Bool) (buf : List Char) : Nat → Nat
  | 0 => 0
  | n + 1 => if (buf.get? n).any p then skipWhileLeft p buf n else n + 1

/-- `while (pos < buf.length && p(buf[pos])) pos++` : the forward scanning
loop of the word-jump handlers. -/
def skipWhileRight (p : Char → Bool) (buf : List Char) (pos : Nat) : Nat :=
  if h : pos < buf.length then
    if p (buf.get ⟨pos, h⟩) then skipWhileRight p buf (pos + 1) else pos
  else pos
termination_by buf.length - pos

/-- Option/Alt+Left target: skip spaces backward, then word characters
backward (`handleInputMode`, `'\x1b[1;3D'` branch).  A non-positive
starting position leaves the loop untouched. -/
def prevWordPos (buf : List Char) (pos : Int) : Int :=
  if pos ≤ 0 then pos
  else (skipWhileLeft (fun c => c ≠ ' ') buf
    (skipWhileLeft (fun c => c = ' ') buf pos.toNat) : Int)

/-- Option/Alt+Right target: skip word characters forward, then spaces
forward (`handleInputMode`, `'\x1b[1;3C'` branch).  Negative positions are
clamped to `0` (unreachable while the cursor invariant holds). -/
def nextWordPos (buf : List Char) (pos : Int) : Int :=
  (skipWhileRight (fun c => c = ' ') buf
    (skipWhileRight (fun c => c ≠ ' ') buf pos.toNat) : Int)

/-! ## Data model (`src/persistence/store.ts`) -/

/-- A queued task (`interface Task`).  `priority`, `recommended`,
`clarified` and `planPath` are the optional metadata fields consumed by the
current `RawSidebar` revision. -/
structure Task where
  id : String
  content : List Char
  createdAt : Nat
  priority : Option Int := none
  recommended : Bool := false
  clarified : Bool := false
  planPath : Option (List Char) := none
  deriving Repr, DecidableEq

/-- The single active-task slot (`interface ActiveTask`). -/
structure ActiveTask where
  id : String
  content : List Char
  sentAt : Nat
  deriving Repr, DecidableEq

/-- An entry of the Done/Review list. -/
structure DoneTask where
  id : String
  content : List Char
  completedAt : Nat
  deriving Repr, DecidableEq

/-- The persisted per-project documents: `tasks.json`, `active.json`, the
done list, and the append-only `history.log` (modelled as the list of
appended content lines). -/
structure Store where
  tasks : List Task
  active : Option ActiveTask
  done : List DoneTask
  history : List (List Char)
  deriving Repr, DecidableEq

/-- `addTask(content)`: append a freshly identified task to `tasks.json`. -/
def addTaskStore (id : String) (now : Nat) (content : List Char) (s : Store) : Store :=
  { s with tasks := s.tasks ++ [{ id := id, content := content, createdAt := now }] }

/-- Replace the content of the first task with the given id
(`tasks.find(t => t.id === id)` followed by mutation). -/
def updateFirst (id : String) (content : List Char) : List Task → List Task
  | [] => []
  | t :: ts =>
    if t.id = id then { t with content := content } :: ts
    else t :: updateFirst id content ts

/-- `updateTask(id, content)`: rewrite `tasks.json` only when the task is
found. -/
def updateTaskStore (id : String) (content : List Char) (s : Store) : Store :=
  if s.tasks.any (fun t => t.id = id) then
    { s with tasks := updateFirst id content s.tasks }
  else s

/-- `removeTask(id)`. -/
def removeTaskStore (id : String) (s : Store) : Store :=
  { s with tasks := s.tasks.filter (fun t => t.id ≠ id) }

/-- `completeActiveTask()`: append the active content to `history.log` and
clear `active.json`; a no-op when there is no active task. -/
def completeActiveTaskStore (s : Store) : Store :=
  match s.active with
  | some a => { s with history := s.history ++ [a.content], active := none }
  | none => s

/-- `activateTask(taskId)` records two sequential file writes: first
`setTasks` persists the queue with the task spliced out, then
`active.json` is written.  This function returns the list of
persisted-store snapshots an external reader can observe: the state before
the call, the state after the `tasks.json` write, and the state after the
`active.json` write (just `[s]` when the id is absent). -/
def activateTaskTrace (taskId : String) (now : Nat) (s : Store) : List Store :=
  match s.tasks.find? (fun t => t.id = taskId) with
  | none => [s]
  | some t =>
    let removed : Store := { s with tasks := s.tasks.eraseP (fun u => u.id = taskId) }
    let final : Store :=
      { removed with active := some { id := t.id, content := t.content, sentAt := now } }
    [s, removed, final]

/-- The final store produced by `activateTask(taskId)` (last state of
`activateTaskTrace`). -/
def activateTaskStore (taskId : String) (now : Nat) (s : Store) : Store :=
  match s.tasks.find? (fun t => t.id = taskId) with
  | none => s
  | some t =>
    { s with
      tasks := s.tasks.eraseP (fun u => u.id = taskId)
      active := some { id := t.id, content := t.content, sentAt := now } }

/-- Modelled from the spec: `removeFromDone(id)` ("user can confirm-remove"
a Review item).  The function itself is not present under `src/`; only its
caller (`handleNormalMode`, `'d'` in the done section) is. -/
def removeFromDoneStore (id : String) (s : Store) : Store :=
  { s with done := s.done.filter (fun d => d.id ≠ id) }

/-- Modelled from the spec: `returnToActive(id)` ("return that item to
Active/in-progress").  The function itself is not present under `src/`;
only its caller (`handleNormalMode`, `'r'`) is. -/
def returnToActiveStore (id : String) (now : Nat) (s : Store) : Store :=
  match s.done.find? (fun d => d.id = id) with
  | none => s
  | some d =>
    { s with
      done := s.done.filter (fun e => e.id ≠ id)
      active := some { id := d.id, content := d.content, sentAt := now } }

/-- Does `tasks.json` contain a task with this id? -/
def inQueue (s : Store) (id : String) : Bool :=
  s.tasks.any (fun t => t.id = id)

/-- Does `active.json` hold a task with this id? -/
def activeHasId (s : Store) (id : String) : Bool :=
  match s.active with
  | some a => a.id = id
  | none => false

/-! ## Persistence reads (`readJson` / `readProjectJson`) -/

/-- `readProjectJson<T>(filename, defaultValue)`: `fs` models
`existsSync`+`readFileSync` (missing file = `none`), `parse` models
`JSON.parse` (`none` = the parse threw, caught by the `try`/`catch`).
Both failure modes return the supplied default; the function never
propagates an error. -/
def readProjectJson {T : Type} (fs : String → Option String)
    (parse : String → Option T) (filename : String) (defaultValue : T) : T :=
  match fs filename with
  | none => defaultValue
  | some raw =>
    match parse raw with
    | none => defaultValue
    | some v => v

/-- `readJson<T>(filename, defaultValue)` for global documents: the same
guard-and-catch structure as `readProjectJson`. -/
def readJson {T : Type} (fs : String → Option String)
    (parse : String → Option T) (filename : String) (defaultValue : T) : T :=
  match fs filename with
  | none => defaultValue
  | some raw =>
    match parse raw with
    | none => defaultValue
    | some v => v

/-- `getTasks()` = `readProjectJson("tasks.json", [])`. -/
def getTasksRead (fs : String → Option String)
    (parse : String → Option (List Task)) : List Task :=
  readProjectJson fs parse "tasks.json" []

/-- `getActiveTask()` = `readProjectJson("active.json", null)`. -/
def getActiveTaskRead (fs : String → Option String)
    (parse : String → Option (Option ActiveTask)) : Option ActiveTask :=
  readProjectJson fs parse "active.json" none

/-! ## Two-tick completion checker

The two-tick-confirmation revision of `RawSidebar` (`loadData`, first
revision in `RawSidebar.tsx`) installs a completion interval while an
active task exists.  Each tick captures whether the assistant pane is idle
at its prompt; `stableCount` counts consecutive idle observations and the
task completes when it reaches 2. -/

/-- The state touched by one completion-interval callback: the stable-idle
counter, the active slot and the history log. -/
structure CheckState where
  stableCount : Nat
  active : Option ActiveTask
  history : List (List Char)
  deriving Repr, DecidableEq

/-- One completion-interval tick (`setInterval` callback in `loadData`):
on an idle observation increment `stableCount` and, when it reaches 2,
run `completeActiveTask()` (append content to history, clear the active
slot), reset the counter and repaint; on a non-idle observation reset the
counter.  Ticks that fire during input mode return without touching the
state and are therefore not part of the observation sequence. -/
def completionTick (s : CheckState) (atPrompt : Bool) : CheckState :=
  if atPrompt then
    if s.stableCount + 1 ≥ 2 then
      { stableCount := 0
        active := none
        history :=
          match s.active with
          | some a => s.history ++ [a.content]
          | none => s.history }
    else { s with stableCount := s.stableCount + 1 }
  else { s with stableCount := 0 }

/-- Run a sequence of completion-check observations. -/
def runTicks (obs : List Bool) (s : CheckState) : CheckState :=
  obs.foldl completionTick s

/-- The checker state at the moment the completion interval is installed
for an active task: counter zero, nothing yet in the history. -/
def initCheck (t : ActiveTask) : CheckState :=
  { stableCount := 0, active := some t, history := [] }

/-- Does the observation sequence contain two consecutive idle ticks?
(`b :: rest` contains one iff `b` and the head of `rest` are both idle, or
`rest` contains one.) -/
def twoConsecutiveIdle : List Bool → Bool
  | [] => false
  | b :: rest => (b && rest.headD false) || twoConsecutiveIdle rest

/-- Whether the checker, started with counter `c`, completes the task
somewhere along the observation sequence (mirrors the tick recursion). -/
def completes : Nat → List Bool → Bool
  | _, [] => false
  | c, b :: rest =>
    if b then (if c + 1 ≥ 2 then true else completes (c + 1) rest)
    else completes 0 rest

/-! ## Queue display order (`getSortedTasks`) -/

/-- The comparator passed to `Array.prototype.sort` by `getSortedTasks`:
both prioritized → `a.priority - b.priority`; only `a` prioritized → `-1`;
only `b` prioritized → `1`; neither → creation-time difference. -/
def taskCmp (a b : Task) : Int :=
  match a.priority, b.priority with
  | some pa, some pb => pa - pb
  | some _, none => -1
  | none, some _ => 1
  | none, none => (a.createdAt : Int) - (b.createdAt : Int)

/-- The (total, transitive) order induced by the comparator: `a` may be
placed before `b` exactly when `taskCmp a b ≤ 0`. -/
def taskLE (a b : Task) : Prop := taskCmp a b ≤ 0

instance : DecidableRel taskLE :=
  fun a b => inferInstanceAs (Decidable (taskCmp a b ≤ 0))

instance : IsTotal Task taskLE := by
  constructor
  intro a b
  unfold taskLE taskCmp
  rcases a.priority with _ | pa <;> rcases b.priority with _ | pb <;> simp <;> omega

instance : IsTrans Task taskLE := by
  constructor
  intro a b c
  unfold taskLE taskCmp
  rcases a.priority with _ | pa <;> rcases b.priority with _ | pb <;>
    rcases c.priority with _ | pc <;> simp <;> omega

/-- `getSortedTasks()`: a stable comparator sort of the in-memory task
list (V8's `Array.prototype.sort` is stable; insertion sort realises the
same specification: a sorted permutation of the input). -/
def getSortedTasks (tasks : List Task) : List Task :=
  List.insertionSort taskLE tasks

/-- The reading of `taskLE` promised by the specification: prioritized
tasks come before unprioritized ones, prioritized tasks are ordered by
ascending priority, unprioritized ones by ascending creation time. -/
def displayOrdOK (a b : Task) : Prop :=
  (a.priority.isSome ∧ b.priority = none)
  ∨ (∃ pa pb, a.priority = some pa ∧ b.priority = some pb ∧ pa ≤ pb)
  ∨ (a.priority = none ∧ b.priority = none ∧ a.createdAt ≤ b.createdAt)

/-! ## The sidebar state machine (current `RawSidebar` revision)

The embedded state carries the `State` interface fields that the claims
touch, the interval handles (`true` = a live `setInterval` handle is
stored), and the persisted store.  Omitted because they are display-only
and never read by any transition of interest: `claudeTodos`, `statusline`,
`height`, `inputRow`, `focused` rendering intensity (kept as a flag),
`isPasting`/`pasteBuffer` (the paste reassembly; `handlePaste` below is
the handler for an already reassembled payload, as in the source). -/

inductive InputMode where
  | none
  | add
  | edit
  deriving Repr, DecidableEq

inductive SBSection where
  | queue
  | done
  deriving Repr, DecidableEq

/-- `Math.ceil(a / b)` for integers, `b ≠ 0`. -/
def jsCeilDiv (a b : Int) : Int := -((-a).fdiv b)

structure App where
  store : Store
  tasks : List Task
  activeTask : Option ActiveTask
  doneTasks : List DoneTask
  selectedSection : SBSection
  selectedIndex : Nat
  doneSelectedIndex : Nat
  inputMode : InputMode
  editingTaskId : Option String
  inputBuffer : List Char
  inputCursor : Int
  width : Nat
  focused : Bool
  running : Bool
  pollInterval : Bool
  completionInterval : Bool
  prevInputLineCount : Int
  nextId : Nat
  now : Nat
  deriving Repr, DecidableEq

/-- `pausePolling()`: clear both interval handles and null them out. -/
def pausePolling (st : App) : App :=
  { st with pollInterval := false, completionInterval := false }

/-- `restartPolling()`: re-install the data-refresh interval unless one is
already stored.  (The completion interval is not touched.) -/
def restartPolling (st : App) : App :=
  if st.pollInterval then st else { st with pollInterval := true }

/-- `exitInputMode()`: reset the edit buffer and cursor, leave input mode,
then restart polling. -/
def exitInputMode (st : App) : App :=
  restartPolling
    { st with
      inputBuffer := []
      inputCursor := 0
      inputMode := InputMode.none
      editingTaskId := none
      prevInputLineCount := 0 }

/-- `loadData()`: re-read every persisted collection and replace the
in-memory snapshots (the source skips the copy when the serialized forms
are equal, which produces the same state). -/
def loadData (st : App) : App :=
  { st with
    tasks := st.store.tasks
    activeTask := st.store.active
    doneTasks := st.store.done }

/-- `addTask` as invoked by the UI: draw a fresh id from the supply and
stamp the current clock. -/
def appAddTask (content : List Char) (st : App) : App :=
  { st with
    store := addTaskStore (Nat.repr st.nextId) st.now content st.store
    nextId := st.nextId + 1 }

/-- `handleInputMode(str)`: the EDITING-mode key handler (current
revision).  Rendering calls (`render`, `redrawInputText`, `moveCursor`)
write only to the terminal and are omitted. -/
def handleInputMode (ev : String) (st : App) : App :=
  let inputBuffer := st.inputBuffer
  let inputCursor := st.inputCursor
  -- Enter - submit
  if ev = "\r" ∨ ev = "\n" then
    let st :=
      if jsTrim inputBuffer ≠ [] then
        let st :=
          if st.inputMode = InputMode.add then
            appAddTask (jsTrim inputBuffer) st
          else if st.inputMode = InputMode.edit then
            match st.editingTaskId with
            | some id => { st with store := updateTaskStore id (jsTrim inputBuffer) st.store }
            | none => st
          else st
        { st with tasks := st.store.tasks }
      else st
    exitInputMode st
  -- Escape - cancel
  else if ev = "\x1b" then
    exitInputMode st
  -- Backspace
  else if ev = "\x7f" ∨ ev = "\x08" then
    if inputCursor > 0 then
      { st with
        inputBuffer := jsSliceL inputBuffer 0 (inputCursor - 1) ++ jsSliceFromL inputBuffer inputCursor
        inputCursor := inputCursor - 1 }
    else st
  -- Left arrow
  else if ev = "\x1b[D" ∨ ev = "\x1bOD" then
    if inputCursor > 0 then { st with inputCursor := inputCursor - 1 } else st
  -- Right arrow
  else if ev = "\x1b[C" ∨ ev = "\x1bOC" then
    if inputCursor < inputBuffer.length then { st with inputCursor := inputCursor + 1 } else st
  -- Up arrow - move up one visual line
  else if ev = "\x1b[A" ∨ ev = "\x1bOA" then
    let maxWidth : Int := (st.width : Int) - 10
    if inputCursor ≥ maxWidth then { st with inputCursor := inputCursor - maxWidth } else st
  -- Down arrow - move down one visual line (or to the end)
  else if ev = "\x1b[B" ∨ ev = "\x1bOB" then
    let maxWidth : Int := (st.width : Int) - 10
    let newPos := inputCursor + maxWidth
    if newPos ≤ inputBuffer.length then { st with inputCursor := newPos }
    else if inputCursor < inputBuffer.length then { st with inputCursor := (inputBuffer.length : Int) }
    else st
  -- Option+Left - start of previous word
  else if ev = "\x1b[1;3D" ∨ ev = "\x1bb" then
    { st with inputCursor := prevWordPos inputBuffer inputCursor }
  -- Option+Right - end of next word
  else if ev = "\x1b[1;3C" ∨ ev = "\x1bf" then
    { st with inputCursor := nextWordPos inputBuffer inputCursor }
  -- Ctrl+A - start of current visual line
  else if ev = "\x01" then
    let maxWidth : Int := (st.width : Int) - 10
    let visualLine := inputCursor.fdiv maxWidth
    { st with inputCursor := visualLine * maxWidth }
  -- Ctrl+E - end of current visual line
  else if ev = "\x05" then
    let maxWidth : Int := (st.width : Int) - 10
    let visualLine := inputCursor.fdiv maxWidth
    { st with inputCursor := min ((visualLine + 1) * maxWidth) (inputBuffer.length : Int) }
  -- Ctrl+U - clear to start
  else if ev = "\x15" then
    { st with inputBuffer := jsSliceFromL inputBuffer inputCursor, inputCursor := 0 }
  -- Ctrl+K - clear to end
  else if ev = "\x0b" then
    { st with inputBuffer := jsSliceL inputBuffer 0 inputCursor }
  -- Ctrl+W - delete word before cursor
  else if ev = "\x17" then
    if inputCursor > 0 then
      let pos := prevWordPos inputBuffer inputCursor
      { st with
        inputBuffer := jsSliceL inputBuffer 0 pos ++ jsSliceFromL inputBuffer inputCursor
        inputCursor := pos }
    else st
  -- Regular printable character
  else
    match ev.data with
    | [c] =>
      if 32 ≤ c.toNat ∧ c.toNat ≤ 126 then
        { st with
          inputBuffer := jsSliceL inputBuffer 0 inputCursor ++ [c] ++ jsSliceFromL inputBuffer inputCursor
          inputCursor := inputCursor + 1 }
      else st
    | _ => st

/-- The newline-delimited, trimmed, non-blank lines of a paste payload
(`content.split(/\r?\n/).map(l => l.trim()).filter(l => l.length > 0)`). -/
def nonBlankLines (content : List Char) : List (List Char) :=
  ((splitLines content).map jsTrim).filter (fun l => l.length ≠ 0)

/-- `handlePaste(content)`: dispatch of a reassembled bracketed-paste
payload.  (`lines` in the source is the local `nonBlankLines content`,
here inlined; `text` in the edit branch is `jsTrim (replNewlines content)`.) -/
def handlePaste (content : List Char) (st : App) : App :=
  if st.inputMode = InputMode.none then st
  else if st.inputMode = InputMode.add then
    if (nonBlankLines content).length = 0 then st
    else if (nonBlankLines content).length = 1 then
      { st with
        inputBuffer := jsSliceL st.inputBuffer 0 st.inputCursor
          ++ (nonBlankLines content).headD []
          ++ jsSliceFromL st.inputBuffer st.inputCursor
        inputCursor := st.inputCursor + ((nonBlankLines content).headD []).length }
    else
      exitInputMode
        { (nonBlankLines content).foldl (fun s l => appAddTask l s) st with
          tasks := ((nonBlankLines content).foldl (fun s l => appAddTask l s) st).store.tasks }
  else
    { st with
      inputBuffer := jsSliceL st.inputBuffer 0 st.inputCursor
        ++ jsTrim (replNewlines content)
        ++ jsSliceFromL st.inputBuffer st.inputCursor
      inputCursor := st.inputCursor + (jsTrim (replNewlines content)).length }

/-- The NORMAL-mode branches checked after the digit keys (Enter dispatch,
clarify, 'a', 'e', 'd', 'r'); split out of `handleNormalMode` for proof
convenience. -/
def handleNormalModeRest (ev : String) (st : App) : App :=
  -- Enter - send task to Claude (only works in queue section)
  if ev = "\r" ∨ ev = "\n" then
    if st.selectedSection ≠ SBSection.queue then st
    else
      match (getSortedTasks st.tasks).get? st.selectedIndex with
      | some task =>
        let st := { st with store := activateTaskStore task.id st.now st.store }
        let st := loadData st
        { st with selectedIndex := st.selectedIndex - 1 }
      | none => st
  -- Ctrl+Enter or 'c' - clarify (sends a prompt, queue state untouched)
  else if ev = "\x1b[13;5u" ∨ ev = "\x1b\r" ∨ ev = "\x1b\n" ∨ ev = "c" then
    st
  -- 'a' - add task (always switches to queue section)
  else if ev = "a" then
    let st := pausePolling st
    { st with
      selectedSection := SBSection.queue
      inputMode := InputMode.add
      inputBuffer := []
      inputCursor := 0
      prevInputLineCount := 1 }
  -- 'e' - edit task (only works in queue section)
  else if ev = "e" then
    if st.selectedSection ≠ SBSection.queue then st
    else
      match (getSortedTasks st.tasks).get? st.selectedIndex with
      | some task =>
        let st := pausePolling st
        let maxWidth : Int := (st.width : Int) - 10
        { st with
          inputMode := InputMode.edit
          editingTaskId := some task.id
          inputBuffer := task.content
          inputCursor := (task.content.length : Int)
          -- `Math.max(1, Math.ceil(len / maxWidth))`; for `maxWidth ≤ 0`
          -- the JS expression is ≤ 0 or non-finite and the max is 1
          prevInputLineCount :=
            if 0 < maxWidth then max 1 (jsCeilDiv (task.content.length : Int) maxWidth) else 1 }
      | none => st
  -- 'd' - delete from queue, or confirm done in Review section
  else if ev = "d" then
    if st.selectedSection = SBSection.queue then
      match (getSortedTasks st.tasks).get? st.selectedIndex with
      | some task =>
        let st := { st with store := removeTaskStore task.id st.store }
        { st with tasks := st.store.tasks, selectedIndex := st.selectedIndex - 1 }
      | none => st
    else
      match st.doneTasks.get? st.doneSelectedIndex with
      | some task =>
        let st := { st with store := removeFromDoneStore task.id st.store }
        let st := { st with doneTasks := st.store.done }
        if st.doneTasks.length = 0 then
          { st with selectedSection := SBSection.queue, selectedIndex := st.tasks.length - 1 }
        else
          { st with doneSelectedIndex := min st.doneSelectedIndex (st.doneTasks.length - 1) }
      | none => st
  -- 'r' - return Review item to In Progress
  else if ev = "r" then
    if st.selectedSection = SBSection.done then
      match st.doneTasks.get? st.doneSelectedIndex with
      | some task =>
        let st := { st with store := returnToActiveStore task.id st.now st.store }
        let st := loadData st
        if st.doneTasks.length = 0 then
          { st with selectedSection := SBSection.queue, selectedIndex := st.tasks.length - 1 }
        else
          { st with doneSelectedIndex := min st.doneSelectedIndex (st.doneTasks.length - 1) }
      | none => st
    else st
  else st

/-- `handleNormalMode(str)`: the NORMAL-mode key handler (current
revision).  External pane calls (`sendToClaudePane`, `focusClaudePane`)
and rendering are side effects outside the state and are omitted;
`process.exit` on Escape is modelled by `running := false` after
`stop()` clears both intervals. -/
def handleNormalMode (ev : String) (st : App) : App :=
  -- Escape - close
  if ev = "\x1b" then
    { st with running := false, pollInterval := false, completionInterval := false }
  -- Up arrow or k
  else if ev = "\x1b[A" ∨ ev = "\x1bOA" ∨ ev = "k" then
    if st.selectedSection = SBSection.queue then
      if st.tasks.length = 0 then
        if st.doneTasks.length > 0 then
          { st with selectedSection := SBSection.done, doneSelectedIndex := st.doneTasks.length - 1 }
        else st
      else if st.selectedIndex > 0 then
        { st with selectedIndex := st.selectedIndex - 1 }
      else if st.doneTasks.length > 0 then
        { st with selectedSection := SBSection.done,
                  doneSelectedIndex := min (st.doneTasks.length - 1) 4 }
      else
        { st with selectedIndex := st.tasks.length - 1 }
    else
      if st.doneSelectedIndex > 0 then
        { st with doneSelectedIndex := st.doneSelectedIndex - 1 }
      else if st.tasks.length > 0 then
        { st with selectedSection := SBSection.queue, selectedIndex := st.tasks.length - 1 }
      else
        { st with doneSelectedIndex := min (st.doneTasks.length - 1) 4 }
  -- Down arrow or j
  else if ev = "\x1b[B" ∨ ev = "\x1bOB" ∨ ev = "j" then
    if st.selectedSection = SBSection.queue then
      if st.tasks.length = 0 then
        if st.doneTasks.length > 0 then
          { st with selectedSection := SBSection.done, doneSelectedIndex := 0 }
        else st
      else if st.selectedIndex < st.tasks.length - 1 then
        { st with selectedIndex := st.selectedIndex + 1 }
      else if st.doneTasks.length > 0 then
        { st with selectedSection := SBSection.done, doneSelectedIndex := 0 }
      else
        { st with selectedIndex := 0 }
    else
      let maxDoneIndex := min (st.doneTasks.length - 1) 4
      if st.doneSelectedIndex < maxDoneIndex then
        { st with doneSelectedIndex := st.doneSelectedIndex + 1 }
      else if st.tasks.length > 0 then
        { st with selectedSection := SBSection.queue, selectedIndex := 0 }
      else
        { st with doneSelectedIndex := 0 }
  -- Number keys 1-9 select a queue item
  else
    match ev.data with
    | [c] =>
      if '1' ≤ c ∧ c ≤ '9' then
        let index := c.toNat - '1'.toNat
        if index < (getSortedTasks st.tasks).length then
          { st with selectedSection := SBSection.queue, selectedIndex := index }
        else st
      else handleNormalModeRest ev st
    | _ => handleNormalModeRest ev st

/-- `handleInput`: focus reports are processed first; all other events are
dispatched to the EDITING- or NORMAL-mode handler according to the current
mode.  (Bracketed-paste payloads enter through `handlePaste` once
reassembled.) -/
def handleKey (ev : String) (st : App) : App :=
  if ev = "\x1b[I" then { st with focused := true }
  else if ev = "\x1b[O" then { st with focused := false }
  else if st.inputMode ≠ InputMode.none then handleInputMode ev st
  else handleNormalMode ev st

/-! ## `wrapText` (renderer helper)

```
function wrapText(text: string, maxWidth: number): string[] {
  if (text.length <= maxWidth) return [text];
  const lines: string[] = [];
  let remaining = text;
  while (remaining.length > 0) {
    lines.push(remaining.slice(0, maxWidth));
    remaining = remaining.slice(maxWidth);
  }
  return lines;
}
```

The `while` loop is embedded with explicit fuel: `none` means the loop has
not finished within the given number of iterations, so the function
diverges exactly when every fuel value yields `none`. -/

/-- The `while (remaining.length > 0)` loop of `wrapText`, with fuel. -/
def wrapLoop (maxWidth : Int) : Nat → List Char → Option (List (List Char))
  | 0, _ => none
  | fuel + 1, remaining =>
    if remaining.length = 0 then some []
    else
      match wrapLoop maxWidth fuel (jsSliceFromL remaining maxWidth) with
      | some ls => some (jsSliceL remaining 0 maxWidth :: ls)
      | none => none

/-- `wrapText(text, maxWidth)` with fuel. -/
def wrapTextF (fuel : Nat) (text : List Char) (maxWidth : Int) : Option (List (List Char)) :=
  if (text.length : Int) ≤ maxWidth then some [text]
  else wrapLoop maxWidth fuel text

/-- `wrapText(text, maxWidth)` diverges: no amount of fuel completes the
loop. -/
def wrapDiverges (text : List Char) (maxWidth : Int) : Prop :=
  ∀ fuel, wrapTextF fuel text maxWidth = none

/-! ## Concrete fixtures -/

/-- An empty store. -/
def emptyStore : Store :=
  { tasks := [], active := none, done := [], history := [] }

/-- A baseline application state: freshly started, NORMAL mode, 50-column
viewport, both polling intervals installed. -/
def demoApp : App :=
  { store := emptyStore
    tasks := []
    activeTask := none
    doneTasks := []
    selectedSection := SBSection.queue
    selectedIndex := 0
    doneSelectedIndex := 0
    inputMode := InputMode.none
    editingTaskId := none
    inputBuffer := []
    inputCursor := 0
    width := 50
    focused := true
    running := true
    pollInterval := true
    completionInterval := true
    prevInputLineCount := 0
    nextId := 0
    now := 1000 }

/-- Fixture task A of the specification's sorting example: priority 1. -/
def taskA : Task := { id := "A", content := ['A'], createdAt := 5, priority := some 1 }

/-- Fixture task B: priority 2. -/
def taskB : Task := { id := "B", content := ['B'], createdAt := 1, priority := some 2 }

/-- Fixture task C: no priority, created before D. -/
def taskC : Task := { id := "C", content := ['C'], createdAt := 10 }

/-- Fixture task D: no priority, created after C. -/
def taskD : Task := { id := "D", content := ['D'], createdAt := 20 }

/-- A one-task store used for the `activateTask` trace analysis. -/
def c3Store : Store :=
  { tasks := [{ id := "t1", content := ['x'], createdAt := 0 }]
    active := none
    done := []
    history := [] }

/-! ## Helper lemmas -/

lemma taskLE_imp_displayOrdOK {a b : Task} (h : taskLE a b) : displayOrdOK a b := by
  unfold taskLE taskCmp at h
  unfold displayOrdOK
  rcases ha : a.priority with _ | pa <;> rcases hb : b.priority with _ | pb <;>
      rw [ha, hb] at h <;> simp [ha, hb] at h ⊢ <;> omega

lemma any_eraseP_eq_false {α : Type} (p : α → Bool) :
    ∀ l : List α, l.countP p ≤ 1 → (l.eraseP p).any p = false := by
  intro l
  induction l with
  | nil => intro _; rfl
  | cons a l ih =>
    intro h
    rw [List.eraseP_cons]
    rcases hpa : p a with _ | _
    · have h' : l.countP p ≤ 1 := by
        rw [List.countP_cons] at h
        simp only [hpa, Bool.false_eq_true, if_false] at h
        omega
      simp [hpa, ih h']
    · have h0 : l.countP p = 0 := by
        rw [List.countP_cons] at h
        simp only [hpa, if_true] at h
        omega
      simp only [cond_true]
      exact List.any_eq_false.mpr (List.countP_eq_zero.mp h0)

lemma exitInputMode_spec (st : App) :
    (exitInputMode st).store = st.store
    ∧ (exitInputMode st).inputBuffer = []
    ∧ (exitInputMode st).inputCursor = 0
    ∧ (exitInputMode st).inputMode = InputMode.none := by
  unfold exitInputMode restartPolling
  split <;> exact ⟨rfl, rfl, rfl, rfl⟩

/-! ## Claim C2: queue display order -/

/-- Claim C2 (confirmed).  The Queue display order is a deterministic pure
function (`getSortedTasks` is a function of the task list), it is
idempotent, it is a permutation of the queue, every adjacent-ordered pair
respects the priority-then-creation-time order promised by the
specification (prioritized before unprioritized, priorities ascending,
unprioritized by creation time ascending), and the concrete example
A(priority 1), B(priority 2), C(no priority, earlier), D(no priority,
later) sorts to [A, B, C, D]. -/
theorem queue_display_order (ts : List Task) :
    getSortedTasks (getSortedTasks ts) = getSortedTasks ts
    ∧ (getSortedTasks ts).Perm ts
    ∧ (getSortedTasks ts).Pairwise displayOrdOK
    ∧ getSortedTasks [taskD, taskC, taskB, taskA] = [taskA, taskB, taskC, taskD] := by
  refine ⟨?_, ?_, ?_, ?_⟩
  · exact (List.sorted_insertionSort taskLE ts).insertionSort_eq
  · exact List.perm_insertionSort taskLE ts
  · exact (List.sorted_insertionSort taskLE ts).imp (fun h => taskLE_imp_displayOrdOK h)
  · decide

/-! ## Claim C9: corrupt or missing documents read as defaults -/

/-- Claim C9 (confirmed).  Whenever a persisted document is missing
(`fs` returns `none`) or its contents fail to parse (`parse` throws,
i.e. returns `none`), every read returns the supplied default and no
error escapes: `readProjectJson`/`readJson` return the default, `getTasks`
returns `[]` and `getActiveTask` returns `null`. -/
theorem corrupt_reads_return_defaults {A B : Type} (fs : String → Option String)
    (parse : String → Option A) (parseG : String → Option B)
    (pt : String → Option (List Task)) (pa : String → Option (Option ActiveTask))
    (filename gname : String) (d : A) (dG : B)
    (hp : ∀ raw, fs filename = some raw → parse raw = none)
    (hg : ∀ raw, fs gname = some raw → parseG raw = none)
    (ht : ∀ raw, fs "tasks.json" = some raw → pt raw = none)
    (ha : ∀ raw, fs "active.json" = some raw → pa raw = none) :
    readProjectJson fs parse filename d = d
    ∧ readJson fs parseG gname dG = dG
    ∧ getTasksRead fs pt = []
    ∧ getActiveTaskRead fs pa = none := by
  refine ⟨?_, ?_, ?_, ?_⟩
  · unfold readProjectJson
    cases hfs : fs filename with
    | none => rfl
    | some raw => simp [hp raw hfs]
  · unfold readJson
    cases hfs : fs gname with
    | none => rfl
    | some raw => simp [hg raw hfs]
  · unfold getTasksRead readProjectJson
    cases hfs : fs "tasks.json" with
    | none => rfl
    | some raw => simp [ht raw hfs]
  · unfold getActiveTaskRead readProjectJson
    cases hfs : fs "active.json" with
    | none => rfl
    | some raw => simp [ha raw hfs]

/-- Witness for C9: a file system with no documents at all makes every
read produce its default. -/
theorem corrupt_reads_return_defaults_witness :
    readProjectJson (fun _ => none) (fun _ => (none : Option Nat)) "tasks.json" 7 = 7
    ∧ getTasksRead (fun _ => none) (fun _ => none) = []
    ∧ getActiveTaskRead (fun _ => none) (fun _ => none) = none := by
  have h := corrupt_reads_return_defaults (A := Nat) (B := Nat) (fun _ => none)
    (fun _ => none) (fun _ => none) (fun _ => none) (fun _ => none)
    "tasks.json" "statusline.json" 7 0
    (fun raw hraw => by cases hraw) (fun raw hraw => by cases hraw)
    (fun raw hraw => by cases hraw) (fun raw hraw => by cases hraw)
  exact ⟨h.1, h.2.2.1, h.2.2.2⟩

/-! ## Claim C10: `wrapText` totality -/

lemma wrapLoop_neg_width_single : ∀ fuel, wrapLoop (-5) fuel ['a'] = none := by
  intro fuel
  induction fuel with
  | zero => rfl
  | succ n ih =>
    have hs : jsSliceFromL ['a'] (-5) = ['a'] := by decide
    unfold wrapLoop
    rw [hs, ih]
    rfl

/-- Claim C10 (code bug).  `wrapText` is not total: for `maxWidth ≤ 0`
and nonempty text the slice `remaining.slice(maxWidth)` never shortens the
remaining string, so the `while` loop never terminates.  Concretely,
`wrapText("a", -5)` — the arguments `redrawInputText` produces on a
5-column viewport (`maxWidth = width - 10`) — diverges: no fuel bound
completes the loop. -/
theorem wrapText_diverges_on_narrow_width : wrapDiverges ['a'] (-5) := by
  intro fuel
  unfold wrapTextF
  rw [if_neg (by norm_num)]
  exact wrapLoop_neg_width_single fuel

/-! ## Claim C1: two-tick completion confirmation -/

lemma runTicks_of_inactive :
    ∀ (obs : List Bool) (s : CheckState), s.active = none →
      (runTicks obs s).active = none ∧ (runTicks obs s).history = s.history := by
  intro obs
  induction obs with
  | nil => intro s h; exact ⟨h, rfl⟩
  | cons b rest ih =>
    intro s h
    have hstep : (completionTick s b).active = none
        ∧ (completionTick s b).history = s.history := by
      unfold completionTick
      split_ifs <;> simp [h]
    refine ⟨(ih _ hstep.1).1, ?_⟩
    show (runTicks rest (completionTick s b)).history = s.history
    rw [(ih _ hstep.1).2, hstep.2]

lemma runTicks_of_active (t : ActiveTask) :
    ∀ (obs : List Bool) (c : Nat) (hist : List (List Char)), c ≤ 1 →
      (((runTicks obs ⟨c, some t, hist⟩).active = none ↔ completes c obs = true)
        ∧ ((runTicks obs ⟨c, some t, hist⟩).active = none →
            (runTicks obs ⟨c, some t, hist⟩).history = hist ++ [t.content])) := by
  intro obs
  induction obs with
  | nil =>
    intro c hist hc
    constructor
    · simp [runTicks, completes]
    · intro h
      simp [runTicks] at h
  | cons b rest ih =>
    intro c hist hc
    cases b with
    | false =>
      have hstep : completionTick ⟨c, some t, hist⟩ false = ⟨0, some t, hist⟩ := by
        unfold completionTick
        simp
      have h0 := ih 0 hist (by omega)
      have hrun : runTicks (false :: rest) ⟨c, some t, hist⟩
          = runTicks rest ⟨0, some t, hist⟩ := by
        show runTicks rest (completionTick ⟨c, some t, hist⟩ false) = _
        rw [hstep]
      have hcomp : completes c (false :: rest) = completes 0 rest := by
        simp [completes]
      rw [hrun, hcomp]
      exact h0
    | true =>
      match c, hc with
      | 0, _ =>
        have hstep : completionTick ⟨0, some t, hist⟩ true = ⟨1, some t, hist⟩ := by
          unfold completionTick
          simp
        have h1 := ih 1 hist (by omega)
        have hrun : runTicks (true :: rest) ⟨0, some t, hist⟩
            = runTicks rest ⟨1, some t, hist⟩ := by
          show runTicks rest (completionTick ⟨0, some t, hist⟩ true) = _
          rw [hstep]
        have hcomp : completes 0 (true :: rest) = completes 1 rest := by
          simp [completes]
        rw [hrun, hcomp]
        exact h1
      | 1, _ =>
        have hstep : completionTick ⟨1, some t, hist⟩ true
            = ⟨0, none, hist ++ [t.content]⟩ := by
          unfold completionTick
          simp
        have hrun : runTicks (true :: rest) ⟨1, some t, hist⟩
            = runTicks rest ⟨0, none, hist ++ [t.content]⟩ := by
          show runTicks rest (completionTick ⟨1, some t, hist⟩ true) = _
          rw [hstep]
        have hdone := runTicks_of_inactive rest ⟨0, none, hist ++ [t.content]⟩ rfl
        rw [hrun]
        constructor
        · simp [hdone.1, completes]
        · intro _
          rw [hdone.2]
      | n + 2, hcn =>
        exact absurd hcn (by omega)

lemma completes_eq_twoConsecutive : ∀ obs : List Bool,
    completes 0 obs = twoConsecutiveIdle obs
    ∧ completes 1 obs = (obs.headD false || twoConsecutiveIdle obs) := by
  intro obs
  induction obs with
  | nil => exact ⟨rfl, rfl⟩
  | cons b rest ih =>
    cases b with
    | false => simp [completes, twoConsecutiveIdle, ih.1]
    | true => simp [completes, twoConsecutiveIdle, ih.2]

/-- Claim C1 (confirmed).  In the two-tick-confirmation revision, starting
from a freshly activated task (counter 0), the completion checker clears
`ActiveTask` — appending exactly the task's content to the history —
precisely when the completion-check observation sequence contains two
consecutive idle-at-prompt ticks; in particular any idle observation
followed by a non-idle observation resets the stable counter to zero
(third conjunct) and by the equivalence no sequence without two
consecutive idle ticks completes the task. -/
theorem two_tick_completion (t : ActiveTask) (obs : List Bool) :
    ((runTicks obs (initCheck t)).active = none ↔ twoConsecutiveIdle obs = true)
    ∧ ((runTicks obs (initCheck t)).active = none →
        (runTicks obs (initCheck t)).history = [t.content])
    ∧ (∀ s : CheckState, (completionTick s false).stableCount = 0) := by
  have h := runTicks_of_active t obs 0 [] (by omega)
  refine ⟨?_, ?_, ?_⟩
  · rw [show initCheck t = ⟨0, some t, []⟩ from rfl, h.1,
      (completes_eq_twoConsecutive obs).1]
  · intro ha
    simpa using h.2 ha
  · intro s
    unfold completionTick
    simp

/-- Witness for C1: the observation sequence idle, busy, idle, idle
completes the task (the counter survives the two final consecutive idle
ticks) and appends its content to history. -/
theorem two_tick_completion_witness :
    (runTicks [true, false, true, true] (initCheck ⟨"t", ['x'], 0⟩)).active = none
    ∧ (runTicks [true, false, true, true] (initCheck ⟨"t", ['x'], 0⟩)).history = [['x']] := by
  have h := two_tick_completion ⟨"t", ['x'], 0⟩ [true, false, true, true]
  have ha := h.1.mpr (by decide)
  exact ⟨ha, h.2.1 ha⟩

/-! ## Claim C3: dispatch atomicity -/

/-- The persisted state after `activateTask`'s first write (`setTasks`
with the task spliced out) and before its second (`active.json`). -/
def activateMid (id : String) (s : Store) : Store :=
  { s with tasks := s.tasks.eraseP (fun u => u.id = id) }

/-- Counterexample to claim C3.  On a store whose queue holds the single
task `t1`, the `activateTask` trace contains an observable state in which
the task is present in neither `tasks.json` nor `active.json`, so it is
false that every reachable persisted state has the task in exactly one of
the two files. -/
theorem activateTask_not_atomic :
    ¬ ∀ u ∈ activateTaskTrace "t1" 5 c3Store,
        (inQueue u "t1" = true ∧ activeHasId u "t1" = false)
        ∨ (inQueue u "t1" = false ∧ activeHasId u "t1" = true) := by
  decide

/-- Claim C3 as amended.  Dispatching a queued task (unique id in the
queue, no active task) performs two sequential writes whose observable
trace is exactly `[before, after-queue-write, after-active-write]`: the
task is never present in both files, the final state has it exactly in
`active.json`, but in the single intermediate state (after the queue write
and before the active write) it is present in neither. -/
theorem activateTask_two_write_trace
    (s : Store) (id : String) (now : Nat) (t : Task)
    (hfind : s.tasks.find? (fun u => u.id = id) = some t)
    (huniq : s.tasks.countP (fun u => u.id = id) ≤ 1)
    (hact : s.active = none) :
    activateTaskTrace id now s = [s, activateMid id s, activateTaskStore id now s]
    ∧ inQueue s id = true ∧ activeHasId s id = false
    ∧ inQueue (activateMid id s) id = false ∧ activeHasId (activateMid id s) id = false
    ∧ inQueue (activateTaskStore id now s) id = false
    ∧ activeHasId (activateTaskStore id now s) id = true := by
  have hpt : t.id = id := by simpa using List.find?_some hfind
  refine ⟨?_, ?_, ?_, ?_, ?_, ?_, ?_⟩
  · simp [activateTaskTrace, activateTaskStore, activateMid, hfind]
  · exact List.any_eq_true.mpr
      ⟨t, List.mem_of_find?_eq_some hfind, by simp [hpt]⟩
  · unfold activeHasId
    rw [hact]
  · exact any_eraseP_eq_false _ _ huniq
  · unfold activeHasId activateMid
    simp [hact]
  · simp only [inQueue, activateTaskStore, hfind]
    exact any_eraseP_eq_false _ _ huniq
  · simp [activeHasId, activateTaskStore, hfind, hpt]

/-- Witness for the amended C3 theorem at the concrete one-task store. -/
theorem activateTask_two_write_trace_witness :
    inQueue (activateMid "t1" c3Store) "t1" = false
    ∧ activeHasId (activateMid "t1" c3Store) "t1" = false
    ∧ activeHasId (activateTaskStore "t1" 5 c3Store) "t1" = true := by
  have h := activateTask_two_write_trace c3Store "t1" 5
    { id := "t1", content := ['x'], createdAt := 0 }
    (by decide) (by decide) rfl
  exact ⟨h.2.2.2.1, h.2.2.2.2.1, h.2.2.2.2.2.2⟩

/-! ## Claim C4: timer cancellation around EDITING -/

/-- A NORMAL-mode state with one queued task (used to exercise the `'e'`
edit entry). -/
def c4EditableApp : App :=
  { demoApp with tasks := [taskA], store := { emptyStore with tasks := [taskA] } }

/-- Claim C4 (code bug), evaluated at the failing inputs.  Entering
EDITING via `'a'` (and via `'e'` with a task selected) does fully cancel
both interval handles, as the claim requires; but leaving EDITING
(Escape cancel, and likewise Enter submit) re-installs only the
data-refresh interval: `restartPolling` never re-arms the
completion-detection interval, which stays cancelled (`null`). -/
theorem completion_timer_not_rearmed_after_editing :
    (handleKey "a" demoApp).inputMode = InputMode.add
    ∧ (handleKey "a" demoApp).pollInterval = false
    ∧ (handleKey "a" demoApp).completionInterval = false
    ∧ (handleKey "e" c4EditableApp).inputMode = InputMode.edit
    ∧ (handleKey "e" c4EditableApp).pollInterval = false
    ∧ (handleKey "e" c4EditableApp).completionInterval = false
    ∧ (handleKey "\x1b" (handleKey "a" demoApp)).inputMode = InputMode.none
    ∧ (handleKey "\x1b" (handleKey "a" demoApp)).pollInterval = true
    ∧ (handleKey "\x1b" (handleKey "a" demoApp)).completionInterval = false
    ∧ (handleKey "\r" (handleKey "a" demoApp)).inputMode = InputMode.none
    ∧ (handleKey "\r" (handleKey "a" demoApp)).pollInterval = true
    ∧ (handleKey "\r" (handleKey "a" demoApp)).completionInterval = false := by
  decide

/-! ## Claim C5: bracketed-paste handling -/

/-- The edit-mode paste insertion as the specification words it: newlines
replaced by spaces and the result inserted at the cursor — without the
`.trim()` the code applies.  Used only to compare the claim's wording
against `handlePaste`. -/
def specEditPasteBuffer (buffer : List Char) (cursor : Int) (content : List Char) : List Char :=
  jsSliceL buffer 0 cursor ++ replNewlines content ++ jsSliceFromL buffer cursor

/-- An edit-mode state with buffer `"ab"` and the cursor between the two
characters. -/
def c5EditApp : App :=
  { demoApp with
    inputMode := InputMode.edit
    editingTaskId := some "A"
    inputBuffer := ['a', 'b']
    inputCursor := 1 }

/-- An add-mode state with an empty buffer. -/
def c5AddApp : App := { demoApp with inputMode := InputMode.add }

/-- Counterexample to claim C5.  Pasting `"x\ny "` in edit mode inserts
`"x y"` (the code trims the payload after collapsing newlines), not the
claim's `"x y "`: the buffer the code produces differs from the buffer
obtained by only replacing newlines with spaces and inserting. -/
theorem edit_paste_trims_counterexample :
    (handlePaste ("x\ny ".toList) c5EditApp).inputBuffer
      ≠ specEditPasteBuffer c5EditApp.inputBuffer c5EditApp.inputCursor ("x\ny ".toList) := by
  decide

lemma foldl_appAddTask_contents :
    ∀ (lines : List (List Char)) (st : App),
      (lines.foldl (fun s l => appAddTask l s) st).store.tasks.map Task.content
        = st.store.tasks.map Task.content ++ lines := by
  intro lines
  induction lines with
  | nil => intro st; simp
  | cons l rest ih =>
    intro st
    show (rest.foldl (fun s l => appAddTask l s) (appAddTask l st)).store.tasks.map Task.content
      = st.store.tasks.map Task.content ++ (l :: rest)
    rw [ih (appAddTask l st)]
    simp [appAddTask, addTaskStore]

/-- Claim C5 as amended.  A reassembled paste payload is split into
newline-delimited, trimmed, non-blank lines.  In add mode: two or more
such lines create exactly one queued task per line (in order, with that
line as content) and return to NORMAL mode with the buffer reset; exactly
one such line is inserted into the buffer at the cursor, staying in
EDITING.  In edit mode the payload's newlines are collapsed to spaces and
the result is **trimmed of leading and trailing whitespace** before being
inserted at the cursor (the trim is the amendment: the claim as stated
omits it). -/
theorem paste_dispatch (st : App) (content : List Char) :
    (st.inputMode = InputMode.add → 2 ≤ (nonBlankLines content).length →
      ((handlePaste content st).store.tasks.map Task.content
          = st.store.tasks.map Task.content ++ nonBlankLines content)
      ∧ (handlePaste content st).inputMode = InputMode.none
      ∧ (handlePaste content st).inputBuffer = []
      ∧ (handlePaste content st).inputCursor = 0)
    ∧ (∀ line, st.inputMode = InputMode.add → nonBlankLines content = [line] →
        (handlePaste content st).inputBuffer
            = jsSliceL st.inputBuffer 0 st.inputCursor ++ line
              ++ jsSliceFromL st.inputBuffer st.inputCursor
        ∧ (handlePaste content st).inputCursor = st.inputCursor + line.length
        ∧ (handlePaste content st).inputMode = InputMode.add
        ∧ (handlePaste content st).store = st.store)
    ∧ (st.inputMode = InputMode.edit →
        (handlePaste content st).inputBuffer
            = jsSliceL st.inputBuffer 0 st.inputCursor ++ jsTrim (replNewlines content)
              ++ jsSliceFromL st.inputBuffer st.inputCursor
        ∧ (handlePaste content st).inputCursor
            = st.inputCursor + (jsTrim (replNewlines content)).length
        ∧ (handlePaste content st).inputMode = InputMode.edit
        ∧ (handlePaste content st).store = st.store) := by
  refine ⟨?_, ?_, ?_⟩
  · intro hadd hlen
    unfold handlePaste
    rw [hadd]
    rw [if_neg (show ¬(InputMode.add = InputMode.none) by decide), if_pos rfl,
      if_neg (show ¬((nonBlankLines content).length = 0) by omega),
      if_neg (show ¬((nonBlankLines content).length = 1) by omega)]
    refine ⟨?_, (exitInputMode_spec _).2.2.2, (exitInputMode_spec _).2.1,
      (exitInputMode_spec _).2.2.1⟩
    rw [(exitInputMode_spec _).1]
    exact foldl_appAddTask_contents (nonBlankLines content) st
  · intro line hadd hline
    unfold handlePaste
    rw [hadd, hline]
    rw [if_neg (show ¬(InputMode.add = InputMode.none) by decide), if_pos rfl,
      if_neg (show ¬(([line] : List (List Char)).length = 0) by simp),
      if_pos (show ([line] : List (List Char)).length = 1 by simp)]
    exact ⟨rfl, rfl, rfl, rfl⟩
  · intro hedit
    unfold handlePaste
    rw [hedit]
    rw [if_neg (show ¬(InputMode.edit = InputMode.none) by decide),
      if_neg (show ¬(InputMode.edit = InputMode.add) by decide)]
    exact ⟨rfl, rfl, rfl, rfl⟩

/-- Witness for the amended C5 theorem: pasting a three-line block in add
mode creates exactly the three tasks and returns to NORMAL. -/
theorem paste_dispatch_witness :
    (handlePaste ("one\ntwo\nthree".toList) c5AddApp).inputMode = InputMode.none
    ∧ (handlePaste ("one\ntwo\nthree".toList) c5AddApp).store.tasks.map Task.content
        = c5AddApp.store.tasks.map Task.content ++ nonBlankLines ("one\ntwo\nthree".toList) := by
  have h := (paste_dispatch c5AddApp ("one\ntwo\nthree".toList)).1 rfl (by decide)
  exact ⟨h.2.1, h.1⟩

/-! ## Claim C6: cursor invariant in EDITING mode -/

/-- The invariant claimed for the edit cursor: `0 ≤ cursor ≤ |buffer|`. -/
def cursorInvariant (st : App) : Prop :=
  0 ≤ st.inputCursor ∧ st.inputCursor ≤ (st.inputBuffer.length : Int)

instance (st : App) : Decidable (cursorInvariant st) :=
  inferInstanceAs (Decidable (_ ∧ _))

/-- An add-mode state on a 5-column viewport (so `maxWidth = width - 10`
is `-5`). -/
def c6NarrowApp : App := { demoApp with width := 5, inputMode := InputMode.add }

/-- Counterexample to claim C6.  On a 5-column viewport the invariant
holds before the Down-arrow event (cursor 0, empty buffer) but the
Down-arrow handler adds the negative `maxWidth = -5` to the cursor and the
guard `newPos <= buffer.length` passes, leaving `inputCursor = -5 < 0`. -/
theorem narrow_width_breaks_cursor_invariant :
    cursorInvariant c6NarrowApp
    ∧ (handleInputMode "\x1b[B" c6NarrowApp).inputCursor = -5
    ∧ ¬ cursorInvariant (handleInputMode "\x1b[B" c6NarrowApp) := by
  decide

lemma jsIndex_le_length (len : Nat) (i : Int) : jsIndex len i ≤ len := by
  unfold jsIndex
  split <;> omega

lemma jsIndex_eq_toNat (len : Nat) (i : Int) (h0 : 0 ≤ i) (h : i ≤ (len : Int)) :
    jsIndex len i = i.toNat := by
  unfold jsIndex
  split <;> omega

lemma length_jsSliceL (s : List Char) (a b : Int) :
    (jsSliceL s a b).length = jsIndex s.length b - jsIndex s.length a := by
  unfold jsSliceL
  rw [List.length_drop, List.length_take]
  have hb := jsIndex_le_length s.length b
  omega

lemma length_jsSliceFromL (s : List Char) (a : Int) :
    (jsSliceFromL s a).length = s.length - jsIndex s.length a := by
  unfold jsSliceFromL
  rw [List.length_drop]

lemma length_insertAt (buf ins : List Char) (c : Int)
    (h0 : 0 ≤ c) (hle : c ≤ (buf.length : Int)) :
    ((jsSliceL buf 0 c ++ ins ++ jsSliceFromL buf c).length : Int)
      = (buf.length : Int) + ins.length := by
  have e0 : jsIndex buf.length 0 = (0 : Int).toNat :=
    jsIndex_eq_toNat _ 0 (le_refl 0) (by positivity)
  have ec : jsIndex buf.length c = c.toNat := jsIndex_eq_toNat _ c h0 hle
  rw [List.length_append, List.length_append, length_jsSliceL, length_jsSliceFromL, e0, ec]
  omega

lemma skipWhileLeft_le (p : Char → Bool) (buf : List Char) :
    ∀ n, skipWhileLeft p buf n ≤ n := by
  intro n
  induction n with
  | zero => exact Nat.le_refl 0
  | succ k ih =>
    unfold skipWhileLeft
    split
    · exact Nat.le_trans ih (Nat.le_succ k)
    · exact Nat.le_refl _

lemma prevWordPos_bounds (buf : List Char) (c : Int) (h0 : 0 ≤ c) :
    0 ≤ prevWordPos buf c ∧ prevWordPos buf c ≤ c := by
  unfold prevWordPos
  split
  · exact ⟨h0, le_refl c⟩
  · have h1 := skipWhileLeft_le (fun ch => ch = ' ') buf c.toNat
    have h2 := skipWhileLeft_le (fun ch => ch ≠ ' ') buf
      (skipWhileLeft (fun ch => ch = ' ') buf c.toNat)
    constructor
    · exact Int.natCast_nonneg _
    · omega

lemma skipWhileRight_le_length (p : Char → Bool) (buf : List Char) :
    ∀ pos, pos ≤ buf.length → skipWhileRight p buf pos ≤ buf.length := by
  have key : ∀ k pos, buf.length - pos ≤ k → pos ≤ buf.length →
      skipWhileRight p buf pos ≤ buf.length := by
    intro k
    induction k with
    | zero =>
      intro pos hk hle
      unfold skipWhileRight
      rw [dif_neg (by omega)]
      exact hle
    | succ k ih =>
      intro pos hk hle
      unfold skipWhileRight
      split_ifs with hlt hp
      · exact ih (pos + 1) (by omega) (by omega)
      · exact hle
      · exact hle
  exact fun pos h => key (buf.length - pos) pos (Nat.le_refl _) h

lemma nextWordPos_bounds (buf : List Char) (c : Int)
    (h0 : 0 ≤ c) (hle : c ≤ (buf.length : Int)) :
    0 ≤ nextWordPos buf c ∧ nextWordPos buf c ≤ (buf.length : Int) := by
  unfold nextWordPos
  have h1 := skipWhileRight_le_length (fun ch => ch ≠ ' ') buf c.toNat (by omega)
  have h2 := skipWhileRight_le_length (fun ch => ch = ' ') buf
    (skipWhileRight (fun ch => ch ≠ ' ') buf c.toNat) h1
  exact ⟨Int.natCast_nonneg _, by omega⟩

lemma exitInputMode_invariant (st : App) : cursorInvariant (exitInputMode st) := by
  have h := exitInputMode_spec st
  unfold cursorInvariant
  rw [h.2.2.1, h.2.1]
  exact ⟨le_refl 0, by simp⟩

/-- Claim C6 as amended.  Provided the viewport is at least 11 columns
wide — so that the visual-line width `maxWidth = width - 10` is at least 1
— every EDITING-mode input event (insert, backspace, cursor and word
moves, visual-line moves, the Ctrl-A/E/U/K/W operations, submit and
cancel) and every paste dispatch preserves `0 ≤ cursor ≤ |buffer|`.  (On
narrower viewports the visual-line navigation violates the invariant; see
the counterexample.) -/
theorem editing_preserves_cursor_invariant (st : App) (ev : String) (content : List Char)
    (hw : 11 ≤ st.width) (hinv : cursorInvariant st) :
    cursorInvariant (handleInputMode ev st) ∧ cursorInvariant (handlePaste content st) := by
  obtain ⟨h0, hle⟩ := hinv
  have hwi : (11 : Int) ≤ (st.width : Int) := by omega
  constructor
  · unfold handleInputMode
    by_cases he1 : ev = "\r" ∨ ev = "\n"
    · rw [if_pos he1]
      exact exitInputMode_invariant _
    rw [if_neg he1]
    by_cases he2 : ev = "\x1b"
    · rw [if_pos he2]
      exact exitInputMode_invariant _
    rw [if_neg he2]
    by_cases hb1 : ev = "\x7f" ∨ ev = "\x08"
    · rw [if_pos hb1]
      split_ifs with hc
      · unfold cursorInvariant
        dsimp only
        have hlen : ((jsSliceL st.inputBuffer 0 (st.inputCursor - 1)
            ++ jsSliceFromL st.inputBuffer st.inputCursor).length : Int)
            = st.inputCursor - 1 + ((st.inputBuffer.length : Int) - st.inputCursor) := by
          have e1 : jsIndex st.inputBuffer.length (st.inputCursor - 1)
              = (st.inputCursor - 1).toNat :=
            jsIndex_eq_toNat _ _ (by omega) (by omega)
          have e0 : jsIndex st.inputBuffer.length 0 = (0 : Int).toNat :=
            jsIndex_eq_toNat _ 0 (le_refl 0) (by positivity)
          have ec : jsIndex st.inputBuffer.length st.inputCursor = st.inputCursor.toNat :=
            jsIndex_eq_toNat _ _ (by omega) hle
          rw [List.length_append, length_jsSliceL, length_jsSliceFromL, e1, e0, ec]
          omega
        rw [hlen]
        omega
      · exact ⟨h0, hle⟩
    rw [if_neg hb1]
    by_cases hb2 : ev = "\x1b[D" ∨ ev = "\x1bOD"
    · rw [if_pos hb2]
      split_ifs with hc
      · exact ⟨by dsimp only; omega, by dsimp only; omega⟩
      · exact ⟨h0, hle⟩
    rw [if_neg hb2]
    by_cases hb3 : ev = "\x1b[C" ∨ ev = "\x1bOC"
    · rw [if_pos hb3]
      split_ifs with hc
      · exact ⟨by dsimp only; omega, by dsimp only; omega⟩
      · exact ⟨h0, hle⟩
    rw [if_neg hb3]
    by_cases hb4 : ev = "\x1b[A" ∨ ev = "\x1bOA"
    · rw [if_pos hb4]
      dsimp only
      split_ifs with hc
      · exact ⟨by dsimp only; omega, by dsimp only; omega⟩
      · exact ⟨h0, hle⟩
    rw [if_neg hb4]
    by_cases hb5 : ev = "\x1b[B" ∨ ev = "\x1bOB"
    · rw [if_pos hb5]
      dsimp only
      split_ifs with hc hc2
      · exact ⟨by dsimp only; omega, by dsimp only; omega⟩
      · exact ⟨by dsimp only; omega, by dsimp only; omega⟩
      · exact ⟨h0, hle⟩
    rw [if_neg hb5]
    by_cases hb6 : ev = "\x1b[1;3D" ∨ ev = "\x1bb"
    · rw [if_pos hb6]
      have hbnd := prevWordPos_bounds st.inputBuffer st.inputCursor h0
      exact ⟨hbnd.1, le_trans hbnd.2 hle⟩
    rw [if_neg hb6]
    by_cases hb7 : ev = "\x1b[1;3C" ∨ ev = "\x1bf"
    · rw [if_pos hb7]
      have hbnd := nextWordPos_bounds st.inputBuffer st.inputCursor h0 hle
      exact ⟨hbnd.1, hbnd.2⟩
    rw [if_neg hb7]
    by_cases hb8 : ev = "\x01"
    · rw [if_pos hb8]
      unfold cursorInvariant
      dsimp only
      have hmw : (0 : Int) < (st.width : Int) - 10 := by omega
      rw [Int.fdiv_eq_ediv _ (le_of_lt hmw)]
      constructor
      · exact mul_nonneg (Int.ediv_nonneg h0 (le_of_lt hmw)) (le_of_lt hmw)
      · exact le_trans (Int.ediv_mul_le _ (by omega)) hle
    rw [if_neg hb8]
    by_cases hb9 : ev = "\x05"
    · rw [if_pos hb9]
      unfold cursorInvariant
      dsimp only
      have hmw : (0 : Int) < (st.width : Int) - 10 := by omega
      rw [Int.fdiv_eq_ediv _ (le_of_lt hmw)]
      constructor
      · apply le_min
        · exact mul_nonneg (by have := Int.ediv_nonneg h0 (le_of_lt hmw); omega)
            (le_of_lt hmw)
        · exact Int.natCast_nonneg _
      · exact min_le_right _ _
    rw [if_neg hb9]
    by_cases hb10 : ev = "\x15"
    · rw [if_pos hb10]
      exact ⟨le_refl 0, Int.natCast_nonneg _⟩
    rw [if_neg hb10]
    by_cases hb11 : ev = "\x0b"
    · rw [if_pos hb11]
      unfold cursorInvariant
      dsimp only
      have ec : jsIndex st.inputBuffer.length st.inputCursor = st.inputCursor.toNat :=
        jsIndex_eq_toNat _ _ h0 hle
      have e0 : jsIndex st.inputBuffer.length 0 = (0 : Int).toNat :=
        jsIndex_eq_toNat _ 0 (le_refl 0) (by positivity)
      rw [length_jsSliceL, ec, e0]
      omega
    rw [if_neg hb11]
    by_cases hb12 : ev = "\x17"
    · rw [if_pos hb12]
      split_ifs with hc
      · unfold cursorInvariant
        dsimp only
        have hbnd := prevWordPos_bounds st.inputBuffer st.inputCursor h0
        have ep : jsIndex st.inputBuffer.length (prevWordPos st.inputBuffer st.inputCursor)
            = (prevWordPos st.inputBuffer st.inputCursor).toNat :=
          jsIndex_eq_toNat _ _ hbnd.1 (by omega)
        have e0 : jsIndex st.inputBuffer.length 0 = (0 : Int).toNat :=
          jsIndex_eq_toNat _ 0 (le_refl 0) (by positivity)
        have ec : jsIndex st.inputBuffer.length st.inputCursor = st.inputCursor.toNat :=
          jsIndex_eq_toNat _ _ h0 hle
        rw [List.length_append, length_jsSliceL, length_jsSliceFromL, ep, e0, ec]
        omega
      · exact ⟨h0, hle⟩
    rw [if_neg hb12]
    rcases hd : ev.data with _ | ⟨c, _ | ⟨c2, cs⟩⟩
    · exact ⟨h0, hle⟩
    · dsimp only
      split_ifs with hc
      · unfold cursorInvariant
        dsimp only
        rw [length_insertAt st.inputBuffer [c] st.inputCursor h0 hle]
        constructor <;> [omega; (simp only [List.length_cons, List.length_nil]; omega)]
      · exact ⟨h0, hle⟩
    · exact ⟨h0, hle⟩
  · unfold handlePaste
    by_cases hm1 : st.inputMode = InputMode.none
    · rw [if_pos hm1]
      exact ⟨h0, hle⟩
    rw [if_neg hm1]
    by_cases hm2 : st.inputMode = InputMode.add
    · rw [if_pos hm2]
      split_ifs with hl0 hl1
      · exact ⟨h0, hle⟩
      · unfold cursorInvariant
        dsimp only
        rw [length_insertAt st.inputBuffer ((nonBlankLines content).headD [])
          st.inputCursor h0 hle]
        constructor <;> omega
      · exact exitInputMode_invariant _
    rw [if_neg hm2]
    unfold cursorInvariant
    dsimp only
    rw [length_insertAt st.inputBuffer (jsTrim (replNewlines content)) st.inputCursor h0 hle]
    constructor <;> omega

/-- Witness for the amended C6 theorem: inserting a character into a
two-character buffer on a 50-column viewport keeps the invariant. -/
theorem editing_preserves_cursor_invariant_witness :
    cursorInvariant (handleInputMode "x" c5EditApp)
    ∧ cursorInvariant (handlePaste ("a\nb".toList) c5EditApp) :=
  editing_preserves_cursor_invariant c5EditApp "x" ("a\nb".toList) (by decide) (by decide)

/-! ## Claim C7: Escape cancels EDITING without any persistence write -/

lemma handleInputMode_frame (ev : String) (st : App)
    (h1 : ev ≠ "\r") (h2 : ev ≠ "\n") (h3 : ev ≠ "\x1b") :
    (handleInputMode ev st).store = st.store
    ∧ (handleInputMode ev st).inputMode = st.inputMode := by
  unfold handleInputMode
  rw [if_neg (by rintro (h | h) <;> contradiction), if_neg h3]
  by_cases hb1 : ev = "\x7f" ∨ ev = "\x08"
  · rw [if_pos hb1]
    refine ⟨?_, ?_⟩ <;> dsimp only <;> (repeat' split) <;> rfl
  rw [if_neg hb1]
  by_cases hb2 : ev = "\x1b[D" ∨ ev = "\x1bOD"
  · rw [if_pos hb2]
    refine ⟨?_, ?_⟩ <;> dsimp only <;> (repeat' split) <;> rfl
  rw [if_neg hb2]
  by_cases hb3 : ev = "\x1b[C" ∨ ev = "\x1bOC"
  · rw [if_pos hb3]
    refine ⟨?_, ?_⟩ <;> dsimp only <;> (repeat' split) <;> rfl
  rw [if_neg hb3]
  by_cases hb4 : ev = "\x1b[A" ∨ ev = "\x1bOA"
  · rw [if_pos hb4]
    refine ⟨?_, ?_⟩ <;> dsimp only <;> (repeat' split) <;> rfl
  rw [if_neg hb4]
  by_cases hb5 : ev = "\x1b[B" ∨ ev = "\x1bOB"
  · rw [if_pos hb5]
    refine ⟨?_, ?_⟩ <;> dsimp only <;> (repeat' split) <;> rfl
  rw [if_neg hb5]
  by_cases hb6 : ev = "\x1b[1;3D" ∨ ev = "\x1bb"
  · rw [if_pos hb6]
    exact ⟨rfl, rfl⟩
  rw [if_neg hb6]
  by_cases hb7 : ev = "\x1b[1;3C" ∨ ev = "\x1bf"
  · rw [if_pos hb7]
    exact ⟨rfl, rfl⟩
  rw [if_neg hb7]
  by_cases hb8 : ev = "\x01"
  · rw [if_pos hb8]
    exact ⟨rfl, rfl⟩
  rw [if_neg hb8]
  by_cases hb9 : ev = "\x05"
  · rw [if_pos hb9]
    exact ⟨rfl, rfl⟩
  rw [if_neg hb9]
  by_cases hb10 : ev = "\x15"
  · rw [if_pos hb10]
    exact ⟨rfl, rfl⟩
  rw [if_neg hb10]
  by_cases hb11 : ev = "\x0b"
  · rw [if_pos hb11]
    exact ⟨rfl, rfl⟩
  rw [if_neg hb11]
  by_cases hb12 : ev = "\x17"
  · rw [if_pos hb12]
    refine ⟨?_, ?_⟩ <;> dsimp only <;> (repeat' split) <;> rfl
  rw [if_neg hb12]
  rcases hd : ev.data with _ | ⟨c, _ | ⟨c2, cs⟩⟩ <;> (try dsimp only) <;>
    (repeat' split) <;> exact ⟨rfl, rfl⟩

lemma handleKey_frame (ev : String) (st : App)
    (hm : st.inputMode ≠ InputMode.none)
    (h1 : ev ≠ "\r") (h2 : ev ≠ "\n") (h3 : ev ≠ "\x1b") :
    (handleKey ev st).store = st.store
    ∧ (handleKey ev st).inputMode = st.inputMode := by
  unfold handleKey
  split_ifs
  · exact ⟨rfl, rfl⟩
  · exact ⟨rfl, rfl⟩
  · exact handleInputMode_frame ev st h1 h2 h3

lemma foldl_handleKey_frame :
    ∀ (evs : List String) (st : App), st.inputMode ≠ InputMode.none →
      (∀ ev ∈ evs, ev ≠ "\r" ∧ ev ≠ "\n" ∧ ev ≠ "\x1b") →
      ((evs.foldl (fun s e => handleKey e s) st).store = st.store
        ∧ (evs.foldl (fun s e => handleKey e s) st).inputMode = st.inputMode) := by
  intro evs
  induction evs with
  | nil => intro st _ _; exact ⟨rfl, rfl⟩
  | cons e rest ih =>
    intro st hm hevs
    have he := hevs e (List.mem_cons_self e rest)
    have hk := handleKey_frame e st hm he.1 he.2.1 he.2.2
    have hrest := ih (handleKey e st) (by rw [hk.2]; exact hm)
      (fun ev hev => hevs ev (List.mem_cons_of_mem _ hev))
    constructor
    · show (rest.foldl (fun s e => handleKey e s) (handleKey e st)).store = st.store
      rw [hrest.1, hk.1]
    · show (rest.foldl (fun s e => handleKey e s) (handleKey e st)).inputMode = st.inputMode
      rw [hrest.2, hk.2]

lemma handleKey_normal (ev : String) (st : App) (hm : st.inputMode = InputMode.none)
    (h1 : ev ≠ "\x1b[I") (h2 : ev ≠ "\x1b[O") :
    handleKey ev st = handleNormalMode ev st := by
  unfold handleKey
  rw [if_neg h1, if_neg h2, if_neg (by simp [hm])]

lemma handleNormalMode_entry_frame (st : App) (ev : String)
    (hev : ev = "a" ∨ ev = "e") :
    (handleNormalMode ev st).store = st.store := by
  rcases hev with rfl | rfl
  · rfl
  · show (handleNormalModeRest "e" st).store = st.store
    unfold handleNormalModeRest
    rw [if_neg (by decide), if_neg (by decide), if_neg (by decide), if_pos rfl]
    split_ifs with hs
    · rfl
    · cases hget : (getSortedTasks st.tasks).get? st.selectedIndex <;> rfl

lemma handleKey_escape_editing (st : App) (hm : st.inputMode ≠ InputMode.none) :
    handleKey "\x1b" st = exitInputMode st := by
  unfold handleKey
  rw [if_neg (by decide), if_neg (by decide), if_pos hm]
  unfold handleInputMode
  rw [if_neg (by decide), if_pos rfl]

/-- Claim C7 (confirmed).  Entering EDITING via `'a'` or `'e'` from NORMAL
mode, performing any sequence of EDITING events other than Enter and
Escape, and then pressing Escape leaves every persisted collection (the
whole store: tasks, active task, done list, history) exactly as before
entry, resets the buffer to empty and the cursor to 0, and returns the
mode to NORMAL. -/
theorem escape_cancels_editing_without_write (st : App) (enterEv : String)
    (evs : List String)
    (hmode : st.inputMode = InputMode.none)
    (henter : enterEv = "a" ∨ enterEv = "e")
    (hentered : (handleKey enterEv st).inputMode ≠ InputMode.none)
    (hevs : ∀ ev ∈ evs, ev ≠ "\r" ∧ ev ≠ "\n" ∧ ev ≠ "\x1b") :
    (handleKey "\x1b"
        (evs.foldl (fun s e => handleKey e s) (handleKey enterEv st))).store = st.store
    ∧ (handleKey "\x1b"
        (evs.foldl (fun s e => handleKey e s) (handleKey enterEv st))).inputBuffer = []
    ∧ (handleKey "\x1b"
        (evs.foldl (fun s e => handleKey e s) (handleKey enterEv st))).inputCursor = 0
    ∧ (handleKey "\x1b"
        (evs.foldl (fun s e => handleKey e s) (handleKey enterEv st))).inputMode
      = InputMode.none := by
  have hs1 : (handleKey enterEv st).store = st.store := by
    rw [handleKey_normal enterEv st hmode
      (by rcases henter with rfl | rfl <;> decide)
      (by rcases henter with rfl | rfl <;> decide)]
    exact handleNormalMode_entry_frame st enterEv henter
  have hf := foldl_handleKey_frame evs (handleKey enterEv st) hentered hevs
  have hesc := handleKey_escape_editing
    (evs.foldl (fun s e => handleKey e s) (handleKey enterEv st))
    (by rw [hf.2]; exact hentered)
  rw [hesc]
  have he := exitInputMode_spec (evs.foldl (fun s e => handleKey e s) (handleKey enterEv st))
  exact ⟨by rw [he.1, hf.1, hs1], he.2.1, he.2.2.1, he.2.2.2⟩

/-- Witness for C7: type "h", "i" after entering add mode, then Escape;
store, buffer, cursor and mode are restored. -/
theorem escape_cancels_editing_without_write_witness :
    (handleKey "\x1b"
        (["h", "i"].foldl (fun s e => handleKey e s) (handleKey "a" demoApp))).store
      = demoApp.store
    ∧ (handleKey "\x1b"
        (["h", "i"].foldl (fun s e => handleKey e s) (handleKey "a" demoApp))).inputMode
      = InputMode.none := by
  have h := escape_cancels_editing_without_write demoApp "a" ["h", "i"] rfl
    (Or.inl rfl) (by decide) (by decide)
  exact ⟨h.1, h.2.2.2⟩

/-! ## Claim C8: blank submit is a no-op on the queue -/

/-- Claim C8 (confirmed).  Pressing Enter (either `'\r'` or `'\n'`) in
EDITING mode with a buffer that trims to empty performs no `addTask` and
no `updateTask` — the persisted store is unchanged — and exits to NORMAL
mode. -/
theorem blank_submit_is_noop (st : App)
    (hmode : st.inputMode ≠ InputMode.none)
    (hblank : jsTrim st.inputBuffer = []) :
    (handleInputMode "\r" st).store = st.store
    ∧ (handleInputMode "\r" st).inputMode = InputMode.none
    ∧ (handleInputMode "\n" st).store = st.store
    ∧ (handleInputMode "\n" st).inputMode = InputMode.none := by
  refine ⟨?_, ?_, ?_, ?_⟩ <;>
    simp only [handleInputMode, hblank, exitInputMode, restartPolling] <;>
    norm_num <;>
    split <;>
    rfl

/-- Witness for C8: submitting a two-space buffer in add mode leaves the
store untouched and returns to NORMAL. -/
theorem blank_submit_is_noop_witness :
    (handleInputMode "\r"
        { demoApp with inputMode := InputMode.add, inputBuffer := [' ', ' '] }).store
      = demoApp.store
    ∧ (handleInputMode "\r"
        { demoApp with inputMode := InputMode.add, inputBuffer := [' ', ' '] }).inputMode
      = InputMode.none := by
  have h := blank_submit_is_noop
    { demoApp with inputMode := InputMode.add, inputBuffer := [' ', ' '] }
    (by decide) (by decide)
  exact ⟨h.1, h.2.1⟩

end Sidebar
